import Mathlib

/-!
Verification development for the RAMCloud backup core: the
BackupFailureMonitor (embedded from src/src/BackupFailureMonitor.cc) and the
BackupServer segment lifecycle and recovery-read pipeline (whose
implementation file is absent from the sources; only BackupServer.h is
present, so those operations are modelled from the specification).
-/

namespace RAMCloud

/-- Kinds of cluster-membership change events delivered by the server tracker
(the ServerChangeEvent values consumed by BackupFailureMonitor::main). -/
inductive ServerChangeEvent where
  | SERVER_ADDED
  | SERVER_CRASHED
  | SERVER_REMOVED
  deriving DecidableEq, Repr

/-- Observable calls the failure monitor makes into the replica manager and
the log during one round of its main loop. -/
inductive MonitorCall where
  | handleBackupFailure (serverId : Nat)
  | allocateHeadIfStillOn (segmentId : Nat)
  | proceed
  deriving DecidableEq, Repr

/-- Embedding of the per-event body of the drain loop in
BackupFailureMonitor::main (src/src/BackupFailureMonitor.cc lines 98-113).
The replica manager pointer is modelled as an optional function from server id
to the optional failed open segment id that handleBackupFailure returns; the
log pointer is modelled by the flag logPresent. Non-crash events are skipped
by the continue; on a crash, handleBackupFailure is called when the replica
manager is non-null, and allocateHeadIfStillOn is called when the log is
non-null and a failed open segment id was returned. -/
def processChange (replicaManager : Option (Nat → Option Nat)) (logPresent : Bool)
    (change : Nat × ServerChangeEvent) : List MonitorCall :=
  if change.2 ≠ ServerChangeEvent.SERVER_CRASHED then
    []
  else
    match replicaManager with
    | none => []
    | some hbf =>
      MonitorCall.handleBackupFailure change.1 ::
        match hbf change.1 with
        | some failedOpenSegment =>
          if logPresent then [MonitorCall.allocateHeadIfStillOn failedOpenSegment] else []
        | none => []

/-- Embedding of the inner while loop of BackupFailureMonitor::main
(lines 90-114): tracker.getChange is drained to exhaustion and each drained
change is handled by processChange, in order. -/
def drainChanges (replicaManager : Option (Nat → Option Nat)) (logPresent : Bool) :
    List (Nat × ServerChangeEvent) → List MonitorCall
  | [] => []
  | change :: rest =>
    processChange replicaManager logPresent change ++
      drainChanges replicaManager logPresent rest

/-- Embedding of one full iteration of the outer loop of
BackupFailureMonitor::main (lines 90-116): drain all pending changes, then,
if the replica manager is non-null, call replicaManager->proceed(). -/
def monitorIteration (replicaManager : Option (Nat → Option Nat)) (logPresent : Bool)
    (changes : List (Nat × ServerChangeEvent)) : List MonitorCall :=
  drainChanges replicaManager logPresent changes ++
    (match replicaManager with
     | some _ => [MonitorCall.proceed]
     | none => [])

/-- Outcome of one evaluation of the wait loop condition at the top of
BackupFailureMonitor::main (lines 78-88). -/
inductive WaitAction where
  | exitThread
  | sleep
  | drain
  deriving DecidableEq, Repr

/-- Embedding of one evaluation of the wait loop at the top of
BackupFailureMonitor::main (lines 78-88): while the replica manager is null or
idle and the tracker has no changes, the thread returns if running is false
and otherwise sleeps on the condition variable; once the condition fails it
falls through to drain changes. rmNullOrIdle models the C++ condition
(!replicaManager || replicaManager->isIdle()). -/
def waitStep (rmNullOrIdle : Bool) (hasChanges : Bool) (running : Bool) : WaitAction :=
  if rmNullOrIdle && !hasChanges then
    if running then WaitAction.sleep else WaitAction.exitThread
  else
    WaitAction.drain

/-- Portion of the BackupFailureMonitor state guarded by its mutex that
halt() manipulates (src/src/BackupFailureMonitor.cc lines 155-167): the
running flag and the log pointer (modelled as an optional id). -/
structure MonitorState where
  running : Bool
  log : Option Nat
  deriving DecidableEq, Repr

/-- Embedding of BackupFailureMonitor::halt (lines 155-167): if not running
it returns immediately with no effect; otherwise it clears the log pointer
and the running flag (the notify and join have no further effect on this
state). -/
def halt (st : MonitorState) : MonitorState :=
  if st.running then { running := false, log := none } else st

/-- Status of a server as recorded by the tracker. -/
inductive ServerStatus where
  | UP
  | CRASHED
  | REMOVE
  deriving DecidableEq, Repr

/-- Details the tracker records for a server; only the status matters to
serverIsUp. -/
structure ServerDetails where
  serverId : Nat
  status : ServerStatus
  deriving DecidableEq, Repr

/-- Embedding of BackupFailureMonitor::serverIsUp
(src/src/BackupFailureMonitor.cc lines 182-196). lockAcquired models whether
the try_to_lock acquisition succeeded; getServerDetails models
tracker.getServerDetails, with none covering both a null result and a thrown
Exception (the catch block leaves backup null). The function returns true
exactly when the lock was acquired, the lookup produced a server, and its
status is UP. -/
def serverIsUp (lockAcquired : Bool) (getServerDetails : Nat → Option ServerDetails)
    (serverId : Nat) : Bool :=
  if !lockAcquired then
    false
  else
    match getServerDetails serverId with
    | none => false
    | some backup => backup.status == ServerStatus.UP

namespace BackupServer

/-- Status codes from the error taxonomy used by the backup RPC handlers. -/
inductive Status where
  | OK
  | BadRequest
  | SegmentNotOpen
  | SegmentAlreadyClosed
  | SegmentFreed
  | SegmentUnavailable
  | StorageIOError
  deriving DecidableEq, Repr

/-- States of a segment replica, from BackupServer::SegmentInfo::State
(src/unnamed/part_000 lines 59-68). -/
inductive SegmentInfo.State where
  | UNINIT
  | OPEN
  | CLOSED
  | FREED
  deriving DecidableEq, Repr

/-- Modelled from the spec: the BackupServer::SegmentInfo implementation is
not among the sources (only the header declarations are), so the per-replica
record is modelled from the data model of the specification. segment is the
optional in-memory staging buffer (a byte list), storageHandle the optional
storage extent handle, and storageData the contents of the storage extent
behind that handle (the persisted bytes, inlined here in place of the
external BackupStorage). -/
structure SegmentInfo where
  masterId : Nat
  segmentId : Nat
  state : SegmentInfo.State
  segment : Option (List Nat)
  storageHandle : Option Nat
  storageData : Option (List Nat)
  deriving DecidableEq, Repr

/-- Splice bytes into a buffer at the given offset, leaving the rest of the
buffer unchanged. -/
def writeAt (buffer : List Nat) (offset : Nat) (bytes : List Nat) : List Nat :=
  buffer.take offset ++ bytes ++ buffer.drop (offset + bytes.length)

/-- Segment as created before any operation is applied to it. -/
def initialSegment (masterId segmentId : Nat) : SegmentInfo :=
  { masterId := masterId, segmentId := segmentId, state := SegmentInfo.State.UNINIT,
    segment := none, storageHandle := none, storageData := none }

/-- Modelled from the spec: BackupServer::openSegment has no implementation
among the sources, so it follows the state-machine table of the
specification: UNINIT moves to OPEN reserving a storage extent and acquiring
a pool buffer (pool buffers carry no content guarantee; a zeroed buffer is
used here), OPEN is an idempotent no-op returning OK, CLOSED fails with
SegmentAlreadyClosed, FREED fails with SegmentFreed. -/
def openSegment (segmentSize : Nat) (s : SegmentInfo) : SegmentInfo × Status :=
  match s.state with
  | SegmentInfo.State.UNINIT =>
    ({ s with state := SegmentInfo.State.OPEN,
              segment := some (List.replicate segmentSize 0),
              storageHandle := some s.segmentId,
              storageData := some (List.replicate segmentSize 0) }, Status.OK)
  | SegmentInfo.State.OPEN => (s, Status.OK)
  | SegmentInfo.State.CLOSED => (s, Status.SegmentAlreadyClosed)
  | SegmentInfo.State.FREED => (s, Status.SegmentFreed)

/-- Modelled from the spec: BackupServer::writeSegment has no implementation
among the sources, so it follows the state-machine table and write policy of
the specification: only an OPEN segment accepts writes; a write succeeds and
copies the bytes into the buffer at the given offset exactly when
offset + length is at most segmentSize, and fails with BadRequest (out of
range offset) otherwise, leaving the segment untouched; UNINIT fails with
SegmentNotOpen, CLOSED with SegmentAlreadyClosed, FREED with SegmentFreed. -/
def writeSegment (segmentSize : Nat) (offset : Nat) (bytes : List Nat)
    (s : SegmentInfo) : SegmentInfo × Status :=
  match s.state with
  | SegmentInfo.State.UNINIT => (s, Status.SegmentNotOpen)
  | SegmentInfo.State.OPEN =>
    if offset + bytes.length ≤ segmentSize then
      ({ s with segment := s.segment.map (fun buffer => writeAt buffer offset bytes) },
        Status.OK)
    else
      (s, Status.BadRequest)
  | SegmentInfo.State.CLOSED => (s, Status.SegmentAlreadyClosed)
  | SegmentInfo.State.FREED => (s, Status.SegmentFreed)

/-- Modelled from the spec: BackupServer::closeSegment has no implementation
among the sources, so it follows the state-machine table of the
specification: OPEN persists the buffer to the storage extent, drops the
buffer, and moves to CLOSED; CLOSED is a no-op returning OK; UNINIT fails
with SegmentNotOpen; FREED fails with SegmentFreed. -/
def closeSegment (s : SegmentInfo) : SegmentInfo × Status :=
  match s.state with
  | SegmentInfo.State.UNINIT => (s, Status.SegmentNotOpen)
  | SegmentInfo.State.OPEN =>
    ({ s with state := SegmentInfo.State.CLOSED,
              storageData := s.segment, segment := none }, Status.OK)
  | SegmentInfo.State.CLOSED => (s, Status.OK)
  | SegmentInfo.State.FREED => (s, Status.SegmentFreed)

/-- Modelled from the spec: BackupServer::freeSegment has no implementation
among the sources, so it follows the specification: free moves to FREED from
any prior state, cancelling pending writes and releasing the buffer and the
storage extent; on an already FREED segment it is a no-op. -/
def freeSegment (s : SegmentInfo) : SegmentInfo × Status :=
  ({ s with state := SegmentInfo.State.FREED,
            segment := none, storageHandle := none, storageData := none }, Status.OK)

/-- One lifecycle operation on a single (masterId, segmentId). -/
inductive SegOp where
  | openOp
  | writeOp (offset : Nat) (bytes : List Nat)
  | closeOp
  | freeOp
  deriving Repr

/-- Apply one lifecycle operation to a segment. -/
def applyOp (segmentSize : Nat) (op : SegOp) (s : SegmentInfo) : SegmentInfo × Status :=
  match op with
  | SegOp.openOp => openSegment segmentSize s
  | SegOp.writeOp offset bytes => writeSegment segmentSize offset bytes s
  | SegOp.closeOp => closeSegment s
  | SegOp.freeOp => freeSegment s

/-- States a segment passes through after each operation of a sequence. -/
def statesAfter (segmentSize : Nat) (s : SegmentInfo) : List SegOp → List SegmentInfo.State
  | [] => []
  | op :: rest =>
    ((applyOp segmentSize op s).1).state ::
      statesAfter segmentSize (applyOp segmentSize op s).1 rest

/-- Full observed state sequence of a segment under a sequence of operations,
starting with its current state. -/
def stateTrace (segmentSize : Nat) (s : SegmentInfo) (ops : List SegOp) :
    List SegmentInfo.State :=
  s.state :: statesAfter segmentSize s ops

/-- Position of a state in the lifecycle order UNINIT, OPEN, CLOSED, FREED. -/
def SegmentInfo.State.rank : SegmentInfo.State → Nat
  | SegmentInfo.State.UNINIT => 0
  | SegmentInfo.State.OPEN => 1
  | SegmentInfo.State.CLOSED => 2
  | SegmentInfo.State.FREED => 3

/-- Types of log entries a segment may contain. SEGHEADER, SEGFOOTER and
LOGDIGEST are metadata whose relevance is independent of tablets. -/
inductive LogEntryType where
  | OBJECT
  | TOMBSTONE
  | SEGHEADER
  | SEGFOOTER
  | LOGDIGEST
  deriving DecidableEq, Repr

/-- Whether a log entry type is tablet-independent metadata (segment
header/footer, log digests), always kept by the recovery filter. -/
def tabletIndependent : LogEntryType → Bool
  | LogEntryType.SEGHEADER => true
  | LogEntryType.SEGFOOTER => true
  | LogEntryType.LOGDIGEST => true
  | LogEntryType.OBJECT => false
  | LogEntryType.TOMBSTONE => false

/-- A decoded, typed log entry: its type tag, addressing fields and payload
bytes (the framing). -/
structure LogEntry where
  type : LogEntryType
  tableId : Nat
  keyHash : Nat
  payload : List Nat
  deriving DecidableEq, Repr

/-- A tablet: a contiguous key-hash range within one table. -/
structure Tablet where
  tableId : Nat
  firstKeyHash : Nat
  lastKeyHash : Nat
  deriving DecidableEq, Repr

/-- Whether an entry's (tableId, keyHash) falls inside a tablet. -/
def inTablet (e : LogEntry) (t : Tablet) : Bool :=
  t.tableId == e.tableId &&
    decide (t.firstKeyHash ≤ e.keyHash) && decide (e.keyHash ≤ t.lastKeyHash)

/-- Modelled from the spec: BackupServer::keepEntry has no implementation
among the sources, so it follows the tablet predicate of the specification:
an entry is kept exactly when its type is tablet-independent metadata or its
(tableId, keyHash) falls in some tablet of the given partition. -/
def keepEntry (tablets : List Tablet) (e : LogEntry) : Bool :=
  tabletIndependent e.type || tablets.any (fun t => inTablet e t)

/-- Kept entries of a decoded segment, in their original order. -/
def filterEntries (tablets : List Tablet) (entries : List LogEntry) : List LogEntry :=
  entries.filter (fun e => keepEntry tablets e)

/-- Serialized framing of one entry: type tag, payload length, payload. -/
def serializeEntry (e : LogEntry) : List Nat :=
  (match e.type with
   | LogEntryType.OBJECT => 0
   | LogEntryType.TOMBSTONE => 1
   | LogEntryType.SEGHEADER => 2
   | LogEntryType.SEGFOOTER => 3
   | LogEntryType.LOGDIGEST => 4) :: e.payload.length :: e.payload

/-- Modelled from the spec: SegmentInfo::getSegment has no implementation
among the sources, so it follows the state-machine table of the
specification: on an OPEN segment it returns the staged buffer; on a CLOSED
segment it returns the buffer when staged, and otherwise loads it from the
storage extent (the synchronization point of the load path); on UNINIT and
FREED it errors. -/
def getBuffer (s : SegmentInfo) : SegmentInfo × Except Status (List Nat) :=
  match s.state with
  | SegmentInfo.State.OPEN =>
    match s.segment with
    | some buffer => (s, Except.ok buffer)
    | none => (s, Except.error Status.StorageIOError)
  | SegmentInfo.State.CLOSED =>
    match s.segment with
    | some buffer => (s, Except.ok buffer)
    | none =>
      match s.storageData with
      | some contents => ({ s with segment := some contents }, Except.ok contents)
      | none => (s, Except.error Status.StorageIOError)
  | SegmentInfo.State.UNINIT => (s, Except.error Status.SegmentUnavailable)
  | SegmentInfo.State.FREED => (s, Except.error Status.SegmentUnavailable)

/-- Modelled from the spec: BackupServer::getRecoveryData has no
implementation among the sources, so it follows the recovery-read steps of
the specification: fail SegmentUnavailable when the segment is missing or
FREED (UNINIT stands for a key absent from the registry), block on getBuffer
for the loaded bytes, decode them as typed entries via the external decoder,
keep the entries selected by the tablet predicate for the partition named by
partitionIndex, and return their serialized framing in original order. -/
def getRecoveryData (decode : List Nat → List LogEntry)
    (partitions : List (List Tablet)) (partitionIndex : Nat)
    (s : SegmentInfo) : SegmentInfo × Except Status (List Nat) :=
  match s.state with
  | SegmentInfo.State.UNINIT => (s, Except.error Status.SegmentUnavailable)
  | SegmentInfo.State.FREED => (s, Except.error Status.SegmentUnavailable)
  | _ =>
    match getBuffer s with
    | (s1, Except.ok buffer) =>
      (s1, Except.ok
        (((filterEntries (partitions.getD partitionIndex []) (decode buffer)).map
            serializeEntry).flatten))
    | (s1, Except.error e) => (s1, Except.error e)

end BackupServer

/-- How many calls processChange emits that handle a backup failure for
server i: exactly one when the change is a crash of i, none otherwise. -/
theorem processChange_count_handleBackupFailure (f : Nat → Option Nat) (i : Nat)
    (c : Nat × ServerChangeEvent) :
    (processChange (some f) true c).count (MonitorCall.handleBackupFailure i)
      = if c = (i, ServerChangeEvent.SERVER_CRASHED) then 1 else 0 := by
  obtain ⟨id, ev⟩ := c
  cases ev
  case SERVER_ADDED => simp [processChange]
  case SERVER_REMOVED => simp [processChange]
  case SERVER_CRASHED =>
    by_cases h : id = i
    · subst h
      cases hf : f id <;> simp [processChange, hf, List.count_cons, List.count_nil]
    · cases hf : f id <;> simp [processChange, hf, h, List.count_cons, List.count_nil]

/-- How many head-rollover calls processChange emits for segment g: exactly
one when the change is a crash whose handleBackupFailure returns g. -/
theorem processChange_count_allocateHead (f : Nat → Option Nat) (g : Nat)
    (c : Nat × ServerChangeEvent) :
    (processChange (some f) true c).count (MonitorCall.allocateHeadIfStillOn g)
      = if c.2 = ServerChangeEvent.SERVER_CRASHED ∧ f c.1 = some g then 1 else 0 := by
  obtain ⟨id, ev⟩ := c
  cases ev <;>
    simp only [processChange, ne_eq, reduceCtorEq, not_false_eq_true, if_true,
      not_true_eq_false, if_false, List.count_nil, false_and, if_neg, not_false_eq_true]
  · cases hf : f id with
    | none => simp [hf, List.count_cons]
    | some g2 =>
      by_cases h : g2 = g <;> simp [hf, h, List.count_cons, List.count_nil]

/-- Drained crash events each contribute exactly one handleBackupFailure
call for their server id. -/
theorem drain_count_handleBackupFailure (f : Nat → Option Nat) (i : Nat) :
    ∀ changes : List (Nat × ServerChangeEvent),
      (drainChanges (some f) true changes).count (MonitorCall.handleBackupFailure i)
        = changes.count (i, ServerChangeEvent.SERVER_CRASHED)
  | [] => rfl
  | c :: rest => by
    rw [drainChanges, List.count_append, processChange_count_handleBackupFailure,
      drain_count_handleBackupFailure f i rest, List.count_cons]
    by_cases h : c = (i, ServerChangeEvent.SERVER_CRASHED) <;> simp [h] <;> omega

/-- Drained crash events whose handleBackupFailure returns segment g each
contribute exactly one allocateHeadIfStillOn call for g. -/
theorem drain_count_allocateHead (f : Nat → Option Nat) (g : Nat) :
    ∀ changes : List (Nat × ServerChangeEvent),
      (drainChanges (some f) true changes).count (MonitorCall.allocateHeadIfStillOn g)
        = (changes.filter (fun c =>
            c.2 == ServerChangeEvent.SERVER_CRASHED && f c.1 == some g)).length
  | [] => rfl
  | c :: rest => by
    rw [drainChanges, List.count_append, processChange_count_allocateHead,
      drain_count_allocateHead f g rest, List.filter_cons]
    by_cases h : c.2 = ServerChangeEvent.SERVER_CRASHED ∧ f c.1 = some g <;>
      simp [h] <;> omega

/-- C1: with a non-null replica manager (modelled by the function f giving
handleBackupFailure's result) and a non-null log, every drained
SERVER_CRASHED event produces exactly one replicaManager.handleBackupFailure
call with that event's server id, and exactly one log.allocateHeadIfStillOn
call with the returned segment id whenever handleBackupFailure returns one:
the number of handleBackupFailure calls for server i equals the number of
crash events for i, and the number of allocateHeadIfStillOn calls for
segment g equals the number of crash events whose handleBackupFailure result
is g. -/
theorem crash_events_drive_failure_handling (f : Nat → Option Nat)
    (changes : List (Nat × ServerChangeEvent)) :
    (∀ i : Nat,
      (drainChanges (some f) true changes).count (MonitorCall.handleBackupFailure i)
        = changes.count (i, ServerChangeEvent.SERVER_CRASHED)) ∧
    (∀ g : Nat,
      (drainChanges (some f) true changes).count (MonitorCall.allocateHeadIfStillOn g)
        = (changes.filter (fun c =>
            c.2 == ServerChangeEvent.SERVER_CRASHED && f c.1 == some g)).length) :=
  ⟨fun i => drain_count_handleBackupFailure f i changes,
   fun g => drain_count_allocateHead f g changes⟩

/-- C2: a drained event whose kind is not SERVER_CRASHED triggers no call at
all: the continue in the drain loop skips it before any replica-manager or
log interaction. -/
theorem non_crash_events_ignored (rm : Option (Nat → Option Nat)) (logPresent : Bool)
    (id : Nat) (ev : ServerChangeEvent)
    (h : ev ≠ ServerChangeEvent.SERVER_CRASHED) :
    processChange rm logPresent (id, ev) = [] := by
  simp [processChange, h]

/-- Concrete instance of non_crash_events_ignored: a SERVER_ADDED event for
server 42 produces no calls even with a live replica manager and log. -/
theorem non_crash_events_ignored_witness :
    (ServerChangeEvent.SERVER_ADDED ≠ ServerChangeEvent.SERVER_CRASHED) ∧
    processChange (some (fun _ => some 17)) true
      (42, ServerChangeEvent.SERVER_ADDED) = [] :=
  ⟨by decide,
   non_crash_events_ignored (some (fun _ => some 17)) true 42
     ServerChangeEvent.SERVER_ADDED (by decide)⟩

/-- Per-event handling never emits a proceed call. -/
theorem processChange_count_proceed (rm : Option (Nat → Option Nat)) (lp : Bool)
    (c : Nat × ServerChangeEvent) :
    (processChange rm lp c).count MonitorCall.proceed = 0 := by
  obtain ⟨id, ev⟩ := c
  cases ev <;> cases rm <;> simp only [processChange, ne_eq, reduceCtorEq,
    not_false_eq_true, if_true, not_true_eq_false, if_false, List.count_nil]
  all_goals
    first
    | rfl
    | (rename_i f
       cases hf : f id <;> cases lp <;> simp [hf, List.count_cons])

/-- Draining changes never emits a proceed call. -/
theorem drain_count_proceed (rm : Option (Nat → Option Nat)) (lp : Bool) :
    ∀ changes : List (Nat × ServerChangeEvent),
      (drainChanges rm lp changes).count MonitorCall.proceed = 0
  | [] => rfl
  | c :: rest => by
    rw [drainChanges, List.count_append, processChange_count_proceed,
      drain_count_proceed rm lp rest]

/-- C3: in every iteration of the monitor's main loop with a non-null
replica manager, once the pending tracker changes are fully drained the
iteration performs exactly one replicaManager.proceed() call, after the
drain: the iteration trace is the drain trace followed by proceed, and the
drain trace itself contains no proceed call. -/
theorem proceed_called_after_drain (f : Nat → Option Nat) (logPresent : Bool)
    (changes : List (Nat × ServerChangeEvent)) :
    monitorIteration (some f) logPresent changes
      = drainChanges (some f) logPresent changes ++ [MonitorCall.proceed] ∧
    (drainChanges (some f) logPresent changes).count MonitorCall.proceed = 0 :=
  ⟨rfl, drain_count_proceed (some f) logPresent changes⟩

/-- C4: the monitor's wait/termination protocol. The thread sleeps on the
condition variable exactly when the replica manager is null or idle, the
tracker has no pending changes, and running is still true; once halt() has
cleared running, the wait loop never sleeps again and returns as soon as the
idle condition holds; halt() on a state whose running flag is already false
leaves the state untouched, and after any halt() the running flag is false. -/
theorem wait_and_halt_protocol :
    (∀ rmNullOrIdle hasChanges running : Bool,
      waitStep rmNullOrIdle hasChanges running = WaitAction.sleep ↔
        (rmNullOrIdle = true ∧ hasChanges = false ∧ running = true)) ∧
    (∀ rmNullOrIdle hasChanges : Bool,
      waitStep rmNullOrIdle hasChanges false ≠ WaitAction.sleep) ∧
    (∀ rmNullOrIdle hasChanges : Bool,
      rmNullOrIdle = true → hasChanges = false →
        waitStep rmNullOrIdle hasChanges false = WaitAction.exitThread) ∧
    (∀ st : MonitorState, st.running = false → halt st = st) ∧
    (∀ st : MonitorState, (halt st).running = false) := by
  refine ⟨by decide, by decide, by decide, ?_, ?_⟩
  · intro st h
    simp [halt, h]
  · intro st
    cases hr : st.running <;> simp [halt, hr]

/-- Concrete instance of wait_and_halt_protocol: with the replica manager
idle, no pending changes and running already cleared, the wait loop returns,
and halt() of an already-halted state is the identity. -/
theorem wait_and_halt_protocol_witness :
    waitStep true false false = WaitAction.exitThread ∧
    halt { running := false, log := some 5 } = { running := false, log := some 5 } :=
  ⟨wait_and_halt_protocol.2.2.1 true false rfl rfl,
   wait_and_halt_protocol.2.2.2.1 { running := false, log := some 5 } rfl⟩

/-- C10: serverIsUp returns true exactly when the try-lock on the monitor's
mutex succeeded and the tracker lookup produced a server whose status is UP;
in every other situation (lock unavailable, lookup threw or returned null,
status not UP) it returns false. In particular a true answer is always
backed by the tracker recording the server as UP. -/
theorem serverIsUp_true_iff_tracker_up (lockAcquired : Bool)
    (getServerDetails : Nat → Option ServerDetails) (serverId : Nat) :
    serverIsUp lockAcquired getServerDetails serverId = true ↔
      (lockAcquired = true ∧
        ∃ d : ServerDetails,
          getServerDetails serverId = some d ∧ d.status = ServerStatus.UP) := by
  cases lockAcquired
  · simp [serverIsUp]
  · cases hd : getServerDetails serverId with
    | none => simp [serverIsUp, hd]
    | some d => cases hs : d.status <;> simp [serverIsUp, hd, hs]

namespace BackupServer

/-- C5: opening a segment that is already OPEN is an idempotent no-op
returning OK, leaving the whole record (state, buffer, storage handle,
extent contents) unchanged; opening a CLOSED segment fails with
SegmentAlreadyClosed and opening a FREED segment fails with SegmentFreed,
both leaving the record unchanged. -/
theorem openSegment_idempotent_and_state_errors (size m sid : Nat)
    (buf : Option (List Nat)) (hdl : Option Nat) (dat : Option (List Nat)) :
    openSegment size
        { masterId := m, segmentId := sid, state := SegmentInfo.State.OPEN,
          segment := buf, storageHandle := hdl, storageData := dat }
      = ({ masterId := m, segmentId := sid, state := SegmentInfo.State.OPEN,
           segment := buf, storageHandle := hdl, storageData := dat }, Status.OK) ∧
    openSegment size
        { masterId := m, segmentId := sid, state := SegmentInfo.State.CLOSED,
          segment := buf, storageHandle := hdl, storageData := dat }
      = ({ masterId := m, segmentId := sid, state := SegmentInfo.State.CLOSED,
           segment := buf, storageHandle := hdl, storageData := dat },
         Status.SegmentAlreadyClosed) ∧
    openSegment size
        { masterId := m, segmentId := sid, state := SegmentInfo.State.FREED,
          segment := buf, storageHandle := hdl, storageData := dat }
      = ({ masterId := m, segmentId := sid, state := SegmentInfo.State.FREED,
           segment := buf, storageHandle := hdl, storageData := dat },
         Status.SegmentFreed) :=
  ⟨rfl, rfl, rfl⟩

/-- C6: on an OPEN segment with staged buffer buf, a write of bytes at
offset succeeds exactly when offset + length is at most segmentSize: in the
success case the buffer is updated by splicing the bytes in at offset, in
the overflow case the call fails with BadRequest and returns the segment
unchanged; moreover the splice really places the written bytes at the given
offset and preserves the buffer length. -/
theorem writeSegment_bounds (size offset : Nat) (bytes : List Nat) (m sid : Nat)
    (buf : List Nat) (hdl : Option Nat) (dat : Option (List Nat)) :
    (offset + bytes.length ≤ size →
      writeSegment size offset bytes
          { masterId := m, segmentId := sid, state := SegmentInfo.State.OPEN,
            segment := some buf, storageHandle := hdl, storageData := dat }
        = ({ masterId := m, segmentId := sid, state := SegmentInfo.State.OPEN,
             segment := some (writeAt buf offset bytes), storageHandle := hdl,
             storageData := dat }, Status.OK)) ∧
    ((writeSegment size offset bytes
        { masterId := m, segmentId := sid, state := SegmentInfo.State.OPEN,
          segment := some buf, storageHandle := hdl, storageData := dat }).2
        = Status.OK ↔ offset + bytes.length ≤ size) ∧
    (size < offset + bytes.length →
      writeSegment size offset bytes
          { masterId := m, segmentId := sid, state := SegmentInfo.State.OPEN,
            segment := some buf, storageHandle := hdl, storageData := dat }
        = ({ masterId := m, segmentId := sid, state := SegmentInfo.State.OPEN,
             segment := some buf, storageHandle := hdl, storageData := dat },
           Status.BadRequest)) ∧
    (offset ≤ buf.length →
      ((writeAt buf offset bytes).drop offset).take bytes.length = bytes) ∧
    (offset + bytes.length ≤ buf.length →
      (writeAt buf offset bytes).length = buf.length) := by
  refine ⟨?_, ?_, ?_, ?_, ?_⟩
  · intro hle
    simp [writeSegment, hle]
  · by_cases hle : offset + bytes.length ≤ size <;> simp [writeSegment, hle]
  · intro hgt
    simp [writeSegment, Nat.not_le.mpr hgt]
  · intro hoff
    have htake : (buf.take offset).length = offset := by
      rw [List.length_take]
      omega
    rw [writeAt, List.append_assoc, List.drop_left' htake, List.take_left' rfl]
  · intro hlen
    simp [writeAt, List.length_take, List.length_drop, List.length_append]
    omega

/-- Concrete instance of writeSegment_bounds on an 8-byte segment: a write
of 3 bytes at offset 2 succeeds and lands at offset 2 preserving the buffer
length, while a write of 3 bytes at offset 6 overflows and fails with
BadRequest leaving the segment unchanged. -/
theorem writeSegment_bounds_witness :
    ((2 + ([1, 2, 3] : List Nat).length ≤ 8) ∧
      (writeSegment 8 2 [1, 2, 3]
        { masterId := 7, segmentId := 3, state := SegmentInfo.State.OPEN,
          segment := some [9, 9, 9, 9, 9, 9, 9, 9], storageHandle := some 3,
          storageData := none }).2 = Status.OK) ∧
    ((8 < 6 + ([1, 2, 3] : List Nat).length) ∧
      writeSegment 8 6 [1, 2, 3]
          { masterId := 7, segmentId := 3, state := SegmentInfo.State.OPEN,
            segment := some [9, 9, 9, 9, 9, 9, 9, 9], storageHandle := some 3,
            storageData := none }
        = ({ masterId := 7, segmentId := 3, state := SegmentInfo.State.OPEN,
             segment := some [9, 9, 9, 9, 9, 9, 9, 9], storageHandle := some 3,
             storageData := none }, Status.BadRequest)) ∧
    ((2 ≤ ([9, 9, 9, 9, 9, 9, 9, 9] : List Nat).length) ∧
      ((writeAt [9, 9, 9, 9, 9, 9, 9, 9] 2 [1, 2, 3]).drop 2).take
        ([1, 2, 3] : List Nat).length = [1, 2, 3]) ∧
    ((2 + ([1, 2, 3] : List Nat).length ≤
        ([9, 9, 9, 9, 9, 9, 9, 9] : List Nat).length) ∧
      (writeAt [9, 9, 9, 9, 9, 9, 9, 9] 2 [1, 2, 3]).length
        = ([9, 9, 9, 9, 9, 9, 9, 9] : List Nat).length) :=
  ⟨⟨by decide,
    (writeSegment_bounds 8 2 [1, 2, 3] 7 3 [9, 9, 9, 9, 9, 9, 9, 9]
        (some 3) none).2.1.mpr (by decide)⟩,
   ⟨by decide,
    (writeSegment_bounds 8 6 [1, 2, 3] 7 3 [9, 9, 9, 9, 9, 9, 9, 9]
        (some 3) none).2.2.1 (by decide)⟩,
   ⟨by decide,
    (writeSegment_bounds 8 2 [1, 2, 3] 7 3 [9, 9, 9, 9, 9, 9, 9, 9]
        (some 3) none).2.2.2.1 (by decide)⟩,
   ⟨by decide,
    (writeSegment_bounds 8 2 [1, 2, 3] 7 3 [9, 9, 9, 9, 9, 9, 9, 9]
        (some 3) none).2.2.2.2 (by decide)⟩⟩

/-- No lifecycle operation ever lowers a segment's position in the order
UNINIT, OPEN, CLOSED, FREED. -/
theorem rank_le_applyOp (size : Nat) (op : SegOp) (s : SegmentInfo) :
    s.state.rank ≤ ((applyOp size op s).1).state.rank := by
  cases op with
  | openOp =>
    cases hs : s.state <;>
      simp [applyOp, openSegment, hs, SegmentInfo.State.rank]
  | writeOp offset bytes =>
    cases hs : s.state
    case OPEN =>
      by_cases hle : offset + bytes.length ≤ size <;>
        simp [applyOp, writeSegment, hs, hle, SegmentInfo.State.rank]
    all_goals simp [applyOp, writeSegment, hs, SegmentInfo.State.rank]
  | closeOp =>
    cases hs : s.state <;>
      simp [applyOp, closeSegment, hs, SegmentInfo.State.rank]
  | freeOp =>
    cases hs : s.state <;>
      simp [applyOp, freeSegment, hs, SegmentInfo.State.rank]

/-- Every state sequence observed from any starting segment is
rank-monotone. -/
theorem stateTrace_chain_mono (size : Nat) (s : SegmentInfo) (ops : List SegOp) :
    List.Chain' (fun a b => a.rank ≤ b.rank) (stateTrace size s ops) := by
  induction ops generalizing s with
  | nil => simp [stateTrace, statesAfter]
  | cons op rest ih =>
    rw [show stateTrace size s (op :: rest)
        = s.state :: stateTrace size (applyOp size op s).1 rest from rfl]
    refine List.chain'_cons'.mpr ⟨?_, ih _⟩
    intro y hy
    have hy2 : ((applyOp size op s).1).state = y := by
      simpa [stateTrace, Option.mem_def] using hy
    rw [← hy2]
    exact rank_le_applyOp size op s

/-- C7 counterexample: freeing a freshly created (UNINIT) segment yields the
observed state sequence UNINIT, FREED, whose deduplication is not a prefix
of the chain UNINIT, OPEN, CLOSED, FREED — free may legally skip states, so
the claim's prefix form fails. -/
theorem stateTrace_not_prefix_counterexample :
    stateTrace 8 (initialSegment 7 3) [SegOp.freeOp]
        = [SegmentInfo.State.UNINIT, SegmentInfo.State.FREED] ∧
    List.destutter (fun a b => a ≠ b) (stateTrace 8 (initialSegment 7 3) [SegOp.freeOp])
        = [SegmentInfo.State.UNINIT, SegmentInfo.State.FREED] ∧
    ¬ ([SegmentInfo.State.UNINIT, SegmentInfo.State.FREED] <+:
        [SegmentInfo.State.UNINIT, SegmentInfo.State.OPEN, SegmentInfo.State.CLOSED,
         SegmentInfo.State.FREED]) := by
  refine ⟨rfl, rfl, ?_⟩
  rintro ⟨t, ht⟩
  simp [List.cons_append] at ht

/-- C7 (amended): for every operation sequence applied to a freshly created
segment, the observed state sequence is monotonically nondecreasing in the
lifecycle order UNINIT, OPEN, CLOSED, FREED (equivalently, its
deduplication is a subsequence of that chain, though not necessarily a
prefix, since free may skip states); no operation ever moves a segment
backwards in this order. -/
theorem stateTrace_monotone_in_lifecycle_order (size m sid : Nat) (ops : List SegOp) :
    List.Chain' (fun a b => a.rank ≤ b.rank)
        (stateTrace size (initialSegment m sid) ops) ∧
    (∀ (s : SegmentInfo) (op : SegOp),
      s.state.rank ≤ ((applyOp size op s).1).state.rank) :=
  ⟨stateTrace_chain_mono size (initialSegment m sid) ops,
   fun s op => rank_le_applyOp size op s⟩

/-- C8: getRecoveryData is deterministic under retry: repeating the call
with the same (masterId, segmentId via the same segment record,
partitionIndex) on the state the first call produced returns a byte-identical
response payload (or the identical error), and the call never changes the
persisted extent contents. -/
theorem getRecoveryData_deterministic (decode : List Nat → List LogEntry)
    (partitions : List (List Tablet)) (partitionIndex : Nat) (s : SegmentInfo) :
    (getRecoveryData decode partitions partitionIndex
        ((getRecoveryData decode partitions partitionIndex s).1)).2
      = (getRecoveryData decode partitions partitionIndex s).2 ∧
    ((getRecoveryData decode partitions partitionIndex s).1).storageData
      = s.storageData := by
  cases hs : s.state
  case UNINIT => simp [getRecoveryData, hs]
  case FREED => simp [getRecoveryData, hs]
  case OPEN => cases hb : s.segment <;> simp [getRecoveryData, getBuffer, hs, hb]
  case CLOSED =>
    cases hb : s.segment
    case some => simp [getRecoveryData, getBuffer, hs, hb]
    case none =>
      cases hd : s.storageData <;> simp [getRecoveryData, getBuffer, hs, hb, hd]

/-- C9: the recovery-read filter keeps an entry exactly when its type is
tablet-independent metadata (kept for every partition) or its
(tableId, keyHash) falls inside some tablet of the selected partition, and
the kept entries are the original entry records (framing intact) in their
original order: the filtered list is a sublist of the input. -/
theorem filterEntries_keeps_iff_tablet_or_metadata (tablets : List Tablet)
    (entries : List LogEntry) :
    (∀ e : LogEntry,
      e ∈ filterEntries tablets entries ↔
        (e ∈ entries ∧
          (tabletIndependent e.type = true ∨ ∃ t ∈ tablets, inTablet e t = true))) ∧
    (filterEntries tablets entries).Sublist entries := by
  constructor
  · intro e
    simp [filterEntries, List.mem_filter, keepEntry, Bool.or_eq_true, List.any_eq_true]
  · exact List.filter_sublist entries

end BackupServer

end RAMCloud
